import Mathlib

/-!
Verification of the audio_pipeline repository's streaming ingestion and
async upload components, shallowly embedded in Lean 4.

Embedded sources:
* src/streaming_pipeline/src/streaming_tar_processor.py
  (conversion, transcription, persistence sub-batch loop)
* src/streaming_pipeline/src/streaming_storage_manager.py
  (AsyncRsyncStorageManager, AsyncDummyStorageManager)
* src/src/hpc_process_day.py (day-status derivation)

External effects (ffmpeg processes, WhisperX inference, database inserts,
rsync transfers) are modelled as oracles: a function giving, per item or
per attempt, the outcome the external system would produce.  The Lean
definitions mirror the Python control flow around those calls.
-/

namespace AudioPipeline

/-! ## Conversion stage
`StreamingTarProcessor._convert_to_opus` returns `(mp3_path, opus_path)` on
success and `(mp3_path, None)` when ffmpeg exits non-zero or raises.
`_batch_convert_to_opus` maps it over the batch (executor.map preserves
order) and then keeps only the pairs whose second component is not None. -/

/-- Oracle for one ffmpeg invocation: `some opusPath` when the external
process exits 0, `none` when it exits non-zero or raises. -/
abbrev ConvOracle : Type := String → Option String

/-- Embeds `_convert_to_opus`: pairs the original path with the oracle's
outcome for it. -/
def convertToOpus (ffmpeg : ConvOracle) (mp3Path : String) : String × Option String :=
  (mp3Path, ffmpeg mp3Path)

/-- Embeds the intermediate `results = list(executor.map(self._convert_to_opus, audio_paths))`
inside `_batch_convert_to_opus`. -/
def batchConvertResults (ffmpeg : ConvOracle) (audioPaths : List String) :
    List (String × Option String) :=
  audioPaths.map (convertToOpus ffmpeg)

/-- Embeds the return value of `_batch_convert_to_opus`: the comprehension
`[(orig, opus) for orig, opus in results if opus is not None]`. -/
def batchConvertToOpus (ffmpeg : ConvOracle) (audioPaths : List String) :
    List (String × String) :=
  (batchConvertResults ffmpeg audioPaths).filterMap
    (fun r => r.2.map (fun opus => (r.1, opus)))

/-! ## Transcription stage
`_transcribe_audio_file` wraps WhisperX in try/except: any exception yields
`{'transcript': '', 'duration': 0}`.  `_batch_transcribe_gpu` loops over the
batch appending one result per input path. -/

/-- A transcript record: text plus duration (the duration value is produced
by the external engine; only its zero fallback matters here). -/
structure Transcript where
  text : String
  duration : Nat
  deriving DecidableEq, Repr

/-- Oracle for one WhisperX load+transcribe call: `some t` when it returns
normally, `none` when it raises. -/
abbrev TransOracle : Type := String → Option Transcript

/-- Embeds `_transcribe_audio_file`: the oracle's result, or the
empty-text / zero-duration record when the call raises. -/
def transcribeAudioFile (whisper : TransOracle) (audioPath : String) : Transcript :=
  match whisper audioPath with
  | some t => t
  | none => { text := "", duration := 0 }

/-- Embeds `_batch_transcribe_gpu`: a loop that appends one result per
input path, in order. -/
def batchTranscribeGpu (whisper : TransOracle) (audioPaths : List String) :
    List Transcript :=
  audioPaths.foldl (fun results p => results ++ [transcribeAudioFile whisper p]) []

/-! ## Persistence sub-batch loop
`_process_audio_sub_batch` iterates over `zip(opus_paths, transcripts)`
on one psycopg2 connection opened with default autocommit off: all the
INSERT/UPDATE statements of a sub-batch run inside one shared
transaction, and `db.commit()` is called once after the loop.  Per item,
the two INSERTs and the `queue_upload` call sit in a try/except that
counts `batch_failed` and continues with the next item.  PostgreSQL
transaction semantics couple the items: an INSERT that raises (e.g. a
constraint violation) puts the shared transaction into the aborted
state, every later `cur.execute` of the same sub-batch then raises
InFailedSqlTransaction (caught by that item's except clause), and the
final commit of an aborted transaction is executed by the server as a
rollback, persisting nothing.  The same structure appears in
`process_audio_batch` of hpc_process_day.py. -/

/-- Per-item external outcomes inside the persistence loop: whether the
audio-row INSERT raises, whether the transcript-row INSERT raises, and
whether `queue_upload` returns True. -/
structure PersistEffects where
  insertAudioRaises : Bool
  insertTranscriptRaises : Bool
  queueOk : Bool
  deriving DecidableEq, Repr

/-- An item's own INSERT raises (constraint violation or similar). -/
def itemRaises (e : PersistEffects) : Bool :=
  e.insertAudioRaises || e.insertTranscriptRaises

/-- The shared-transaction state carried through the persistence loop:
whether the transaction is aborted, the row pairs whose statements have
executed in the open transaction (persisted only if the final commit
goes through), and the batch_processed / batch_failed counters. -/
structure TxnState where
  aborted : Bool
  staged : List String
  processed : Nat
  failed : Nat
  deriving DecidableEq, Repr

/-- Embeds the per-item try/except body of `_process_audio_sub_batch`
under psycopg2 semantics.  In an aborted transaction each statement
raises InFailedSqlTransaction at once, so the item is counted failed
without executing anything.  Otherwise an item whose INSERT raises aborts
the transaction and is counted failed; an item whose statements execute
is staged, and counted processed or failed according to `queue_upload`'s
answer. -/
def persistStep (acc : TxnState) (item : String × PersistEffects) : TxnState :=
  if acc.aborted then { acc with failed := acc.failed + 1 }
  else if item.2.insertAudioRaises then
    { acc with aborted := true, failed := acc.failed + 1 }
  else if item.2.insertTranscriptRaises then
    { acc with aborted := true, failed := acc.failed + 1 }
  else if item.2.queueOk then
    { acc with staged := acc.staged ++ [item.1], processed := acc.processed + 1 }
  else
    { acc with staged := acc.staged ++ [item.1], failed := acc.failed + 1 }

/-- The whole persistence loop over a sub-batch followed by the single
`db.commit()`: committing an aborted transaction rolls it back, so
nothing is persisted when any insert of the sub-batch raised; otherwise
the staged rows are persisted.  Returns (persisted row filenames,
batch_processed, batch_failed). -/
def processPersistLoop (items : List (String × PersistEffects)) :
    List String × Nat × Nat :=
  let final := items.foldl persistStep
    { aborted := false, staged := [], processed := 0, failed := 0 }
  (if final.aborted then [] else final.staged, final.processed, final.failed)

/-! ## Day-status derivation
`HPCTimestampedAudioProcessor._update_processing_stats` runs one UPDATE
whose CASE expressions derive status and error_message from
`self.failed_count` and `self.processed_count`. -/

/-- Embeds the status CASE of `_update_processing_stats`:
WHEN failed = 0 THEN completed; WHEN failed > 0 AND processed > 0 THEN
completed_with_errors; ELSE processing_failed. -/
def dayStatus (failedCount processedCount : Nat) : String :=
  if failedCount = 0 then "completed"
  else if failedCount > 0 && processedCount > 0 then "completed_with_errors"
  else "processing_failed"

/-- Embeds the error_message CASE of `_update_processing_stats`:
WHEN failed > 0 THEN concatenated summary ELSE NULL. -/
def dayErrorMessage (failedCount processedCount : Nat) : Option String :=
  if failedCount > 0 then
    some ("Failed files: " ++ toString failedCount ++ ", Processed: " ++ toString processedCount)
  else none

/-! ## Storage path convention -/

/-- Python `{:02d}` formatting for the nonnegative month/day values. -/
def pad2 (n : Nat) : String :=
  if n < 10 then "0" ++ toString n else toString n

/-- Embeds `AsyncRsyncStorageManager.get_storage_path`. -/
def rsyncGetStoragePath (year month day : Nat) (timestamp filename : String) : String :=
  "audio/" ++ toString year ++ "/" ++ pad2 month ++ "/" ++ pad2 day ++ "/" ++
    timestamp ++ "/" ++ filename

/-- Embeds `AsyncDummyStorageManager.get_storage_path`. -/
def dummyGetStoragePath (year month day : Nat) (timestamp filename : String) : String :=
  "audio/" ++ toString year ++ "/" ++ pad2 month ++ "/" ++ pad2 day ++ "/" ++
    timestamp ++ "/" ++ filename

/-- The spec's stated convention, written from the spec's words:
audio/{year}/{month:02d}/{day:02d}/{timeslot}/{filename}. -/
def specStoragePath (year month day : Nat) (timeslot filename : String) : String :=
  "audio/" ++ toString year ++ "/" ++ pad2 month ++ "/" ++ pad2 day ++ "/" ++
    timeslot ++ "/" ++ filename

/-! ## Upload retry loop
`AsyncRsyncStorageManager._execute_upload` loops `for attempt in
range(self.max_retries)`.  Per attempt, `_perform_rsync` either succeeds,
returns `(False, error_msg)`, or raises.  A non-final returned failure
sleeps `min(2 ** attempt, 30)` seconds and increments `stats['retries']`;
an exception does neither.  After the loop the task is recorded failed
with the last error message. -/

/-- Outcome of one `_perform_rsync` call: success, a returned failure with
its message, or an exception with its message. -/
inductive AttemptResult where
  | success
  | failure (msg : String)
  | exc (msg : String)
  deriving DecidableEq, Repr

/-- Observables of one `_execute_upload` run: terminal success flag, the
recorded error message, how much `stats['retries']` was incremented, the
backoff sleeps performed in order, and how many attempts executed. -/
structure UploadRunResult where
  ok : Bool
  errorMsg : Option String
  retriesAdded : Nat
  delays : List Nat
  attemptsMade : Nat
  deriving DecidableEq, Repr

/-- Loop body of `_execute_upload`, recursing on the remaining iteration
count of `range(max_retries)`. -/
def execUploadGo (maxRetries : Nat) (outcome : Nat → AttemptResult) :
    Nat → Nat → Nat → List Nat → Option String → UploadRunResult
  | 0, attempt, retries, delays, lastErr =>
      { ok := false, errorMsg := lastErr, retriesAdded := retries,
        delays := delays, attemptsMade := attempt }
  | remaining + 1, attempt, retries, delays, lastErr =>
      match outcome attempt with
      | .success =>
          { ok := true, errorMsg := none, retriesAdded := retries,
            delays := delays, attemptsMade := attempt + 1 }
      | .failure msg =>
          if attempt < maxRetries - 1 then
            execUploadGo maxRetries outcome remaining (attempt + 1) (retries + 1)
              (delays ++ [min (2 ^ attempt) 30]) (some msg)
          else
            execUploadGo maxRetries outcome remaining (attempt + 1) retries
              delays (some msg)
      | .exc msg =>
          execUploadGo maxRetries outcome remaining (attempt + 1) retries
            delays (some msg)

/-- Embeds `_execute_upload` for one task, given the per-attempt outcome
oracle. -/
def executeUpload (maxRetries : Nat) (outcome : Nat → AttemptResult) : UploadRunResult :=
  execUploadGo maxRetries outcome maxRetries 0 0 [] none

/-! ## Upload manager state
`AsyncRsyncStorageManager` keeps `upload_results` (dict audio_id ->
(success, error_message)), `active_uploads` (dict audio_id -> Future) and
the `stats` counters, all mutated under `upload_lock`.  The dict
`upload_results` is modelled as an association list where the most recent
assignment for a key is the first entry with that key. -/

/-- One recorded result: (success flag, error message), as stored in
`upload_results`. -/
abbrev UploadResult : Type := Bool × Option String

/-- Manager state: recorded results, ids of active uploads, and the four
stats counters. -/
structure MgrState where
  results : List (String × UploadResult)
  active : List String
  queued : Nat
  completed : Nat
  failed : Nat
  retryCount : Nat

/-- The freshly constructed manager: empty dicts, zero counters. -/
def initMgr : MgrState :=
  { results := [], active := [], queued := 0, completed := 0, failed := 0,
    retryCount := 0 }

/-- Dict read of `upload_results[id]`: the most recent assignment wins. -/
def lookupResult (m : List (String × UploadResult)) (id : String) : Option UploadResult :=
  (m.find? (fun p => p.1 == id)).map (fun p => p.2)

/-- The message written for tasks cancelled on `wait_for_completion`
timeout. -/
def cancelMsg : String := "Cancelled due to timeout"

/-- The assignments performed by the cancellation loop of
`wait_for_completion` over the ids still active. -/
def cancelList (ids : List String) : List (String × UploadResult) :=
  ids.map (fun id => (id, (false, some cancelMsg)))

/-- Embeds `AsyncRsyncStorageManager.queue_upload`: returns False without
touching state when the local file does not exist; otherwise submits the
task, registers the Future under the id and increments queued. -/
def queueUploadRun (s : MgrState) (fileExists : Bool) (id : String) : Bool × MgrState :=
  if !fileExists then (false, s)
  else (true, { s with active := s.active ++ [id], queued := s.queued + 1 })

/-- Atomic state transitions of the upload manager, each one critical
section of the Python code. -/
inductive Event where
  /-- the caller invokes queue_upload for a file that exists (queueUpload id true)
  or does not (queueUpload id false) -/
  | queueUpload (id : String) (fileExists : Bool)
  /-- the success epilogue of `_execute_upload`: record (True, None),
  increment completed, drop the id from active_uploads if present -/
  | workerSuccess (id : String)
  /-- the all-attempts-failed epilogue of `_execute_upload`: record
  (False, err), increment failed, drop the id from active_uploads if
  present -/
  | workerFail (id : String) (err : String)
  /-- one `stats['retries'] += 1` performed mid-run by a worker -/
  | retryTick
  /-- the cancellation section of `wait_for_completion` after its polling
  loop exits on timeout: mark every still-active id cancelled-failed and
  clear active_uploads -/
  | cancelTimeout
  deriving DecidableEq, Repr

/-- The state transition each event performs, translated from the locked
sections of streaming_storage_manager.py. -/
def stepEvent (s : MgrState) : Event → MgrState
  | .queueUpload id fileExists => (queueUploadRun s fileExists id).2
  | .workerSuccess id =>
      { s with results := (id, ((true : Bool), (none : Option String))) :: s.results,
               completed := s.completed + 1,
               active := s.active.erase id }
  | .workerFail id err =>
      { s with results := (id, ((false : Bool), some err)) :: s.results,
               failed := s.failed + 1,
               active := s.active.erase id }
  | .retryTick => { s with retryCount := s.retryCount + 1 }
  | .cancelTimeout =>
      { s with results := cancelList s.active ++ s.results, active := [] }

/-- Runs a sequence of events from a state. -/
def runEvents (s : MgrState) (evs : List Event) : MgrState :=
  evs.foldl stepEvent s

/-- Embeds `check_upload_status`: results first, then active, else
not_found. -/
def checkUploadStatus (s : MgrState) (id : String) : String × Option String :=
  match lookupResult s.results id with
  | some r => (if r.1 then "completed" else "failed", r.2)
  | none => if id ∈ s.active then ("pending", none) else ("not_found", none)

/-- The dictionary returned by `get_stats`. -/
structure Stats where
  queued : Nat
  completed : Nat
  failed : Nat
  retryCount : Nat
  pending : Nat
  deriving DecidableEq, Repr

/-- Embeds `get_stats`. -/
def getStats (s : MgrState) : Stats :=
  { queued := s.queued, completed := s.completed, failed := s.failed,
    retryCount := s.retryCount, pending := s.active.length }

/-- Embeds the timeout exit of `wait_for_completion`: the polling loop has
broken with the given state; the cancellation section then marks every
still-active task failed-with-cancellation, clears active_uploads, and
the call returns `get_stats()`. -/
def waitForCompletionTimedOut (s : MgrState) : MgrState × Stats :=
  let s' := stepEvent s .cancelTimeout
  (s', getStats s')

/-- Embeds `AsyncDummyStorageManager.queue_upload`: records immediate
success and returns True, with no file-existence check. -/
def dummyQueueUpload (results : List (String × UploadResult)) (fileExists : Bool)
    (id : String) : Bool × List (String × UploadResult) :=
  (true, (id, ((true : Bool), (none : Option String))) :: results)

/-- The stats-consistency property of claim C10: queued tasks are exactly
the completed, failed and still-active ones. -/
abbrev statsInvariant (s : MgrState) : Prop :=
  s.queued = s.completed + s.failed + s.active.length

/-- An event is well-formed in a state when it can actually be produced by
the running system there: worker epilogues fire only for tasks whose
Future is registered, a given tracking id is enqueued at most once, and
no timeout cancellation occurs. -/
def okEvent (s : MgrState) : Event → Bool
  | .queueUpload id fileExists => !fileExists || decide (id ∉ s.active)
  | .workerSuccess id => decide (id ∈ s.active)
  | .workerFail id _ => decide (id ∈ s.active)
  | .retryTick => true
  | .cancelTimeout => false

/-- Every event of the trace is well-formed in the state it fires from. -/
def okTrace : MgrState → List Event → Bool
  | _, [] => true
  | s, e :: es => okEvent s e && okTrace (stepEvent s e) es

/-- Whether an event reads or writes the entry of the given tracking id. -/
def touchesId (e : Event) (id : String) : Bool :=
  match e with
  | .queueUpload i _ => i == id
  | .workerSuccess i => i == id
  | .workerFail i _ => i == id
  | .retryTick => false
  | .cancelTimeout => false

/-! ## Helper lemmas -/

theorem foldl_append_singleton {α β : Type} (f : α → β) :
    ∀ (xs : List α) (init : List β),
      xs.foldl (fun acc x => acc ++ [f x]) init = init ++ xs.map f := by
  intro xs
  induction xs with
  | nil => intro init; simp
  | cons x xs ih => intro init; simp [List.foldl_cons, ih]

theorem batchTranscribeGpu_eq_map (whisper : TransOracle) (audioPaths : List String) :
    batchTranscribeGpu whisper audioPaths =
      audioPaths.map (transcribeAudioFile whisper) := by
  simpa [batchTranscribeGpu] using
    foldl_append_singleton (transcribeAudioFile whisper) audioPaths []

theorem persistStep_foldl_aborted (items : List (String × PersistEffects)) :
    ∀ (staged : List String) (p f : Nat),
      items.foldl persistStep { aborted := true, staged := staged, processed := p, failed := f } =
        { aborted := true, staged := staged, processed := p, failed := f + items.length } := by
  induction items with
  | nil => intro staged p f; simp
  | cons it items ih =>
      intro staged p f
      have hstep :
          persistStep { aborted := true, staged := staged, processed := p, failed := f } it =
            { aborted := true, staged := staged, processed := p, failed := f + 1 } := by
        simp [persistStep]
      rw [List.foldl_cons, hstep, ih staged p (f + 1)]
      simp [TxnState.mk.injEq]
      omega

theorem persistStep_foldl_any_raise (items : List (String × PersistEffects)) :
    ∀ (staged : List String) (p f : Nat),
      (items.foldl persistStep
        { aborted := false, staged := staged, processed := p, failed := f }).aborted =
        (items.any fun it => itemRaises it.2) := by
  induction items with
  | nil => intro staged p f; simp
  | cons it items ih =>
      intro staged p f
      rcases hia : it.2.insertAudioRaises with _ | _
      · rcases hit : it.2.insertTranscriptRaises with _ | _
        · by_cases hq : it.2.queueOk = true
          · simp [List.foldl_cons, persistStep, hia, hit, hq, ih, List.any_cons, itemRaises]
          · simp [List.foldl_cons, persistStep, hia, hit, hq, ih, List.any_cons, itemRaises]
        · simp [List.foldl_cons, persistStep, hia, hit, persistStep_foldl_aborted,
            List.any_cons, itemRaises]
      · simp [List.foldl_cons, persistStep, hia, persistStep_foldl_aborted,
          List.any_cons, itemRaises]

theorem persistStep_foldl_no_raise (items : List (String × PersistEffects)) :
    ∀ (staged : List String) (p f : Nat),
      (items.all fun it => !itemRaises it.2) = true →
      items.foldl persistStep
        { aborted := false, staged := staged, processed := p, failed := f } =
        { aborted := false, staged := staged ++ (items.map fun it => it.1),
          processed := p + (items.filter fun it => it.2.queueOk).length,
          failed := f + (items.filter fun it => !it.2.queueOk).length } := by
  induction items with
  | nil => intro staged p f _; simp
  | cons it items ih =>
      intro staged p f hall
      have h1 : itemRaises it.2 = false ∧ (items.all fun it => !itemRaises it.2) = true := by
        simpa [List.all_cons] using hall
      have hia : it.2.insertAudioRaises = false := by
        have := h1.1
        simp [itemRaises] at this
        exact this.1
      have hit : it.2.insertTranscriptRaises = false := by
        have := h1.1
        simp [itemRaises] at this
        exact this.2
      by_cases hq : it.2.queueOk = true
      · rw [List.foldl_cons]
        have hstep :
            persistStep { aborted := false, staged := staged, processed := p, failed := f } it =
              { aborted := false, staged := staged ++ [it.1], processed := p + 1,
                failed := f } := by
          simp [persistStep, hia, hit, hq]
        rw [hstep, ih (staged ++ [it.1]) (p + 1) f h1.2]
        simp [TxnState.mk.injEq, List.filter_cons, hq, List.append_assoc]
        omega
      · rw [List.foldl_cons]
        have hstep :
            persistStep { aborted := false, staged := staged, processed := p, failed := f } it =
              { aborted := false, staged := staged ++ [it.1], processed := p,
                failed := f + 1 } := by
          simp [persistStep, hia, hit, hq]
        rw [hstep, ih (staged ++ [it.1]) p (f + 1) h1.2]
        simp [TxnState.mk.injEq, List.filter_cons, hq, List.append_assoc]
        omega

/-! ## Claim theorems -/

/-- Claim C1 (code bug): the claimed per-item persistence isolation does
not hold.  A sub-batch's inserts share one psycopg2 transaction with a
single commit after the loop, so one raising insert aborts the
transaction: every remaining item's statement raises
InFailedSqlTransaction (caught and counted failed, not really attempted)
and the final commit rolls the whole sub-batch back.  First conjunct:
whenever any item's insert raises, zero records are persisted.  Second
conjunct: records are persisted (all of them) exactly when no insert of
the sub-batch raises.  Third conjunct evaluates the claim's own
scenario — 4 transcribed items, item 2's insert raising a constraint
violation — to 0 persisted records, 1 processed counted (item 1, later
rolled back) and 3 failures, against the claimed 3 persisted and 1
failure with no transaction-wide rollback. -/
theorem c1_persistence_rollback (items : List (String × PersistEffects)) :
    ((items.any fun it => itemRaises it.2) = true → (processPersistLoop items).1 = []) ∧
    ((items.any fun it => itemRaises it.2) = false →
      (processPersistLoop items).1 = items.map fun it => it.1) ∧
    processPersistLoop
      [("item1", ⟨false, false, true⟩), ("item2", ⟨true, false, true⟩),
       ("item3", ⟨false, false, true⟩), ("item4", ⟨false, false, true⟩)] =
      ([], 1, 3) := by
  refine ⟨fun h => ?_, fun h => ?_, by decide⟩
  · have habort := persistStep_foldl_any_raise items [] 0 0
    simp [processPersistLoop, habort, h]
  · have hall : (items.all fun it => !itemRaises it.2) = true := by
      rw [List.all_eq_true]
      intro it hit
      have hfalse : itemRaises it.2 = false := by
        by_contra hc
        have htrue : itemRaises it.2 = true := by simpa using hc
        have : (items.any fun it => itemRaises it.2) = true :=
          List.any_eq_true.mpr ⟨it, hit, htrue⟩
        simp [this] at h
      simp [hfalse]
    have hrun := persistStep_foldl_no_raise items [] 0 0 hall
    simp [processPersistLoop, hrun]

/-- Witness for C1 at concrete sub-batches: one raising insert wipes the
whole sub-batch's rows; with no raising insert every row persists. -/
theorem c1_persistence_rollback_witness :
    (processPersistLoop
      [("item1", ⟨false, false, true⟩), ("item2", ⟨true, false, true⟩)]).1 = [] ∧
    (processPersistLoop
      [("item1", ⟨false, false, true⟩), ("item2", ⟨false, false, false⟩)]).1 =
      ["item1", "item2"] := by
  constructor
  · exact (c1_persistence_rollback
      [("item1", ⟨false, false, true⟩), ("item2", ⟨true, false, true⟩)]).1 (by decide)
  · have h := (c1_persistence_rollback
      [("item1", ⟨false, false, true⟩), ("item2", ⟨false, false, false⟩)]).2.1 (by decide)
    simpa using h

/-- Claim C2 counterexample: for a batch with one input path whose ffmpeg
conversion fails, the conversion stage's returned sequence has length 0,
not the input length 1 — failed entries are dropped from the returned
list, not kept as failure markers. -/
theorem c2_counterexample :
    (batchConvertToOpus (fun _ => none) ["a.mp3"]).length ≠ ["a.mp3"].length := by
  decide

/-- Claim C2 (amended): the intermediate per-item result sequence of the
conversion stage (the mapped `executor.map` output) has the same length
as the input and pairs input path i with its conversion outcome (None on
failure) at every position; the stage's returned list then keeps exactly
the successful pairs, in input order. -/
theorem c2_conversion_order (ffmpeg : ConvOracle) (audioPaths : List String) :
    (batchConvertResults ffmpeg audioPaths).length = audioPaths.length ∧
    (∀ i : Nat, (batchConvertResults ffmpeg audioPaths)[i]? =
      (audioPaths[i]?).map fun p => (p, ffmpeg p)) ∧
    batchConvertToOpus ffmpeg audioPaths =
      audioPaths.filterMap fun p => (ffmpeg p).map fun opus => (p, opus) := by
  refine ⟨by simp [batchConvertResults], fun i => ?_, ?_⟩
  · cases h : audioPaths[i]? <;> simp [batchConvertResults, convertToOpus, h]
  · simp [batchConvertToOpus, batchConvertResults, List.filterMap_map]
    rfl

/-- Claim C3: transcription totality and fallback.  The transcription
stage returns exactly one result per input path, in order; position i of
the output is input path i's per-item transcription, which is the
engine's result when the call returns and the empty-text / zero-duration
record when it raises — no exception propagates out of the stage.  (In
the code the stage always transcribes item-by-item; there is no separate
batched-inference call, so the per-item path claimed for the fallback is
taken unconditionally.) -/
theorem c3_transcription_totality (whisper : TransOracle) (audioPaths : List String) :
    (batchTranscribeGpu whisper audioPaths).length = audioPaths.length ∧
    (∀ i : Nat, (batchTranscribeGpu whisper audioPaths)[i]? =
      (audioPaths[i]?).map fun p => transcribeAudioFile whisper p) ∧
    (∀ p : String, transcribeAudioFile whisper p =
      (whisper p).getD { text := "", duration := 0 }) := by
  refine ⟨?_, fun i => ?_, fun p => ?_⟩
  · simp [batchTranscribeGpu_eq_map]
  · simp [batchTranscribeGpu_eq_map]
  · cases h : whisper p <;> simp [transcribeAudioFile, h]

/-- Claim C7: day-status derivation.  The status CASE yields completed
when the failed counter is zero, completed_with_errors when both counters
are positive, processing_failed when failures exist with zero processed;
the error_message is the human-readable summary when failures exist and
NULL otherwise. -/
theorem c7_day_status (f p : Nat) :
    (f = 0 → dayStatus f p = "completed" ∧ dayErrorMessage f p = none) ∧
    (f > 0 → p > 0 → dayStatus f p = "completed_with_errors") ∧
    (f > 0 → p = 0 → dayStatus f p = "processing_failed") ∧
    (f > 0 → dayErrorMessage f p =
      some ("Failed files: " ++ toString f ++ ", Processed: " ++ toString p)) := by
  refine ⟨fun h => ?_, fun hf hp => ?_, fun hf hp => ?_, fun hf => ?_⟩
  · simp [dayStatus, dayErrorMessage, h]
  · simp [dayStatus, Nat.pos_iff_ne_zero.mp hf, hf, hp]
  · simp [dayStatus, Nat.pos_iff_ne_zero.mp hf, hf, hp]
  · simp [dayErrorMessage, hf]

/-- Witness for C7 at concrete counters. -/
theorem c7_day_status_witness :
    dayStatus 0 5 = "completed" ∧ dayStatus 2 3 = "completed_with_errors" ∧
    dayStatus 2 0 = "processing_failed" ∧
    dayErrorMessage 2 3 = some "Failed files: 2, Processed: 3" := by
  refine ⟨((c7_day_status 0 5).1 rfl).1, (c7_day_status 2 3).2.1 (by decide) (by decide),
    (c7_day_status 2 0).2.2.1 (by decide) rfl, ?_⟩
  have h := (c7_day_status 2 3).2.2.2 (by decide)
  simpa using h

/-- Claim C9: the real and dummy storage managers compute the identical
storage path, equal to the spec's convention
audio/{year}/{month:02d}/{day:02d}/{timeslot}/{filename}
with two-digit zero-padded month and day, a deterministic function of its
five arguments. -/
theorem c9_storage_path_agreement (year month day : Nat) (timestamp filename : String) :
    rsyncGetStoragePath year month day timestamp filename =
      dummyGetStoragePath year month day timestamp filename ∧
    rsyncGetStoragePath year month day timestamp filename =
      specStoragePath year month day timestamp filename :=
  ⟨rfl, rfl⟩

theorem execUploadGo_attempts_le (n : Nat) (outcome : Nat → AttemptResult) :
    ∀ (remaining attempt retries : Nat) (delays : List Nat) (lastErr : Option String),
      (execUploadGo n outcome remaining attempt retries delays lastErr).attemptsMade ≤
        attempt + remaining := by
  intro remaining
  induction remaining with
  | zero => intro attempt retries delays lastErr; simp [execUploadGo]
  | succ r ih =>
      intro attempt retries delays lastErr
      cases houtcome : outcome attempt with
      | success => simp only [execUploadGo, houtcome]; omega
      | failure msg =>
          by_cases h : attempt < n - 1
          · have hrec := ih (attempt + 1) (retries + 1)
              (delays ++ [min (2 ^ attempt) 30]) (some msg)
            simp only [execUploadGo, houtcome, if_pos h]
            omega
          · have hrec := ih (attempt + 1) retries delays (some msg)
            simp only [execUploadGo, houtcome, if_neg h]
            omega
      | exc msg =>
          have hrec := ih (attempt + 1) retries delays (some msg)
          simp only [execUploadGo, houtcome]
          omega

theorem execUploadGo_all_fail (n : Nat) (msgs : Nat → String) :
    ∀ (remaining attempt retries : Nat) (delays : List Nat) (lastErr : Option String),
      remaining + attempt = n → 1 ≤ remaining →
      execUploadGo n (fun i => .failure (msgs i)) remaining attempt retries delays lastErr =
        { ok := false, errorMsg := some (msgs (n - 1)),
          retriesAdded := retries + (remaining - 1),
          delays := delays ++ ((List.range' attempt (remaining - 1)).map fun i => min (2 ^ i) 30),
          attemptsMade := n } := by
  intro remaining
  induction remaining with
  | zero => intro attempt retries delays lastErr _ h1; omega
  | succ r ih =>
      intro attempt retries delays lastErr hsum _
      rcases Nat.eq_zero_or_pos r with hr | hr
      · subst hr
        have hatt : attempt = n - 1 := by omega
        have hlt : ¬ attempt < n - 1 := by omega
        simp [execUploadGo, hlt, hatt]
        omega
      · have hlt : attempt < n - 1 := by omega
        have hrec := ih (attempt + 1) (retries + 1) (delays ++ [min (2 ^ attempt) 30])
          (some (msgs attempt)) (by omega) (by omega)
        have hrange : List.range' attempt r = attempt :: List.range' (attempt + 1) (r - 1) := by
          rw [show r = (r - 1) + 1 by omega]
          simpa using List.range'_succ attempt (r - 1) 1
        simp only [execUploadGo, if_pos hlt, hrec, Nat.succ_sub_one, hrange,
          List.map_cons, List.append_assoc, List.singleton_append,
          UploadRunResult.mk.injEq, true_and, and_true]
        omega

/-- Claim C4: upload retry semantics.  Part 1 (concrete scenario): a
transfer that fails twice then succeeds on the third attempt ends
completed, not failed, with the retry counter incremented exactly twice
and backoff sleeps of 1 then 2 seconds.  Part 2: a task whose every
attempt fails (n configured attempts, n >= 1) ends failed with the last
attempt's error message retained, n - 1 retry increments, and the backoff
delays min(2 ** attempt, 30) for attempts 0..n-2 — exponentially growing
and capped at 30.  Part 3: no task is ever attempted more than the
configured maximum number of times. -/
theorem c4_upload_retry (n : Nat) (msgs : Nat → String) (h : 1 ≤ n) :
    executeUpload 3
        (fun i => if i = 0 then .failure "e1" else if i = 1 then .failure "e2" else .success) =
      { ok := true, errorMsg := none, retriesAdded := 2, delays := [1, 2],
        attemptsMade := 3 } ∧
    executeUpload n (fun i => .failure (msgs i)) =
      { ok := false, errorMsg := some (msgs (n - 1)), retriesAdded := n - 1,
        delays := (List.range (n - 1)).map fun i => min (2 ^ i) 30,
        attemptsMade := n } ∧
    (∀ outcome : Nat → AttemptResult, (executeUpload n outcome).attemptsMade ≤ n) := by
  refine ⟨by decide, ?_, fun outcome => ?_⟩
  · rw [executeUpload, execUploadGo_all_fail n msgs n 0 0 [] none (by omega) h]
    simp [List.range_eq_range']
  · have := execUploadGo_attempts_le n outcome n 0 0 [] none
    simpa [executeUpload] using this

/-- Witness for C4 at two configured attempts with every attempt failing. -/
theorem c4_upload_retry_witness :
    executeUpload 2 (fun _ => AttemptResult.failure "boom") =
      { ok := false, errorMsg := some "boom", retriesAdded := 1, delays := [1],
        attemptsMade := 2 } := by
  have h := (c4_upload_retry 2 (fun _ => "boom") (by decide)).2.1
  simpa using h

theorem lookupResult_cancelList (rest : List (String × UploadResult)) (id : String)
    (ids : List String) :
    (id ∈ ids → lookupResult (cancelList ids ++ rest) id = some (false, some cancelMsg)) ∧
    (id ∉ ids → lookupResult (cancelList ids ++ rest) id = lookupResult rest id) := by
  induction ids with
  | nil => simp [cancelList]
  | cons a ids ih =>
      rcases ih with ⟨ih1, ih2⟩
      by_cases ha : a = id
      · subst ha
        refine ⟨fun _ => ?_, fun h => absurd (List.mem_cons_self a ids) h⟩
        simp [cancelList, lookupResult]
      · have hbeq : (a == id) = false := by simp [ha]
        constructor
        · intro h
          have hm : id ∈ ids := by
            rcases List.mem_cons.mp h with h' | h'
            · exact absurd h'.symm ha
            · exact h'
          have := ih1 hm
          simpa [cancelList, lookupResult, hbeq] using this
        · intro h
          have hnot : id ∉ ids := fun hm => h (List.mem_cons_of_mem _ hm)
          have := ih2 hnot
          simpa [cancelList, lookupResult, hbeq] using this

/-- Claim C5: upload timeout cancellation.  When `wait_for_completion`'s
polling loop exits on timeout with tasks still active, the cancellation
section records every such task as failed with the cancellation reason,
empties the set of active uploads, and the call returns the aggregate
statistics (with zero pending) rather than raising. -/
theorem c5_timeout_cancellation (s : MgrState) (id : String) (h : id ∈ s.active) :
    checkUploadStatus (waitForCompletionTimedOut s).1 id = ("failed", some cancelMsg) ∧
    (waitForCompletionTimedOut s).1.active = [] ∧
    (waitForCompletionTimedOut s).2 = getStats (waitForCompletionTimedOut s).1 ∧
    (waitForCompletionTimedOut s).2.pending = 0 := by
  have hlk := (lookupResult_cancelList s.results id s.active).1 h
  refine ⟨?_, rfl, rfl, ?_⟩
  · simp [waitForCompletionTimedOut, stepEvent, checkUploadStatus, hlk]
  · simp [waitForCompletionTimedOut, stepEvent, getStats]

/-- Witness for C5: a manager with one queued, still-active upload hits
the timeout path. -/
theorem c5_timeout_cancellation_witness :
    checkUploadStatus (waitForCompletionTimedOut
        { results := [], active := ["a1"], queued := 1, completed := 0, failed := 0,
          retryCount := 0 }).1 "a1" = ("failed", some cancelMsg) ∧
    (waitForCompletionTimedOut
        { results := [], active := ["a1"], queued := 1, completed := 0, failed := 0,
          retryCount := 0 }).1.active = [] ∧
    (waitForCompletionTimedOut
        { results := [], active := ["a1"], queued := 1, completed := 0, failed := 0,
          retryCount := 0 }).2 = getStats (waitForCompletionTimedOut
        { results := [], active := ["a1"], queued := 1, completed := 0, failed := 0,
          retryCount := 0 }).1 ∧
    (waitForCompletionTimedOut
        { results := [], active := ["a1"], queued := 1, completed := 0, failed := 0,
          retryCount := 0 }).2.pending = 0 :=
  c5_timeout_cancellation
    { results := [], active := ["a1"], queued := 1, completed := 0, failed := 0,
      retryCount := 0 } "a1" (by decide)

/-- Claim C6 counterexample: a task queued, then cancelled by the
wait_for_completion timeout (recorded terminal status failed), is
resurrected to completed when its still-running upload worker finishes
afterwards — `future.cancel()` does not stop a running upload, and
`_execute_upload` overwrites the recorded result unconditionally. -/
theorem c6_counterexample :
    checkUploadStatus (runEvents initMgr
        [Event.queueUpload "42" true, Event.cancelTimeout]) "42" =
      ("failed", some cancelMsg) ∧
    checkUploadStatus (runEvents initMgr
        [Event.queueUpload "42" true, Event.cancelTimeout, Event.workerSuccess "42"]) "42" =
      ("completed", none) := by
  decide

theorem stepEvent_preserves_result (s : MgrState) (id : String) (res : UploadResult)
    (e : Event) (hres : lookupResult s.results id = some res) (hact : id ∉ s.active)
    (hne : touchesId e id = false) :
    lookupResult (stepEvent s e).results id = some res ∧ id ∉ (stepEvent s e).active := by
  cases e with
  | queueUpload i fe =>
      have hi : (i == id) = false := by simpa [touchesId] using hne
      have hine : i ≠ id := by simpa using hi
      cases fe
      · exact ⟨by simpa [stepEvent, queueUploadRun] using hres,
          by simpa [stepEvent, queueUploadRun] using hact⟩
      · refine ⟨by simpa [stepEvent, queueUploadRun] using hres, ?_⟩
        intro hmem
        have h' : id ∈ s.active ∨ id = i := by
          simpa [stepEvent, queueUploadRun] using hmem
        rcases h' with hmem' | hmem'
        · exact hact hmem'
        · exact hine hmem'.symm
  | workerSuccess i =>
      have hi : (i == id) = false := by simpa [touchesId] using hne
      refine ⟨by simpa [stepEvent, lookupResult, hi] using hres, ?_⟩
      intro hmem
      exact hact (List.mem_of_mem_erase (by simpa [stepEvent] using hmem))
  | workerFail i err =>
      have hi : (i == id) = false := by simpa [touchesId] using hne
      refine ⟨by simpa [stepEvent, lookupResult, hi] using hres, ?_⟩
      intro hmem
      exact hact (List.mem_of_mem_erase (by simpa [stepEvent] using hmem))
  | retryTick => exact ⟨by simpa [stepEvent] using hres, by simpa [stepEvent] using hact⟩
  | cancelTimeout =>
      have hlk := (lookupResult_cancelList s.results id s.active).2 hact
      refine ⟨?_, by simp [stepEvent]⟩
      show lookupResult (cancelList s.active ++ s.results) id = some res
      rw [hlk]
      exact hres

/-- Claim C6 (amended): a terminal result recorded for a tracking id that
is no longer registered as active — i.e. one written by the upload
worker's own completion — is never changed by any later step (further
enqueues of other ids, other workers finishing, or timeout cancellation).
The exception forced by the counterexample is a result written by the
timeout-cancellation path while the task's worker is still running: that
worker's completion overwrites it. -/
theorem c6_terminal_not_resurrected (s : MgrState) (evs : List Event) (id : String)
    (res : UploadResult) (hres : lookupResult s.results id = some res)
    (hact : id ∉ s.active) (hevs : ∀ e ∈ evs, touchesId e id = false) :
    lookupResult (runEvents s evs).results id = some res := by
  induction evs generalizing s with
  | nil => simpa [runEvents] using hres
  | cons e es ih =>
      have he := hevs e (List.mem_cons_self e es)
      obtain ⟨h1, h2⟩ := stepEvent_preserves_result s id res e hres hact he
      have := ih (stepEvent s e) h1 h2 (fun e' he' => hevs e' (List.mem_cons_of_mem _ he'))
      simpa [runEvents] using this

/-- Witness for the amended C6: a completed result survives a later
timeout cancellation and unrelated traffic. -/
theorem c6_terminal_not_resurrected_witness :
    lookupResult (runEvents
        { results := [("a", (true, none))], active := ["b"], queued := 2, completed := 1,
          failed := 0, retryCount := 0 }
        [Event.cancelTimeout, Event.queueUpload "c" true,
         Event.workerFail "c" "err"]).results "a" = some (true, none) :=
  c6_terminal_not_resurrected
    { results := [("a", (true, none))], active := ["b"], queued := 2, completed := 1,
      failed := 0, retryCount := 0 }
    [Event.cancelTimeout, Event.queueUpload "c" true, Event.workerFail "c" "err"]
    "a" (true, none) (by decide) (by decide) (by decide)

/-- Claim C8 counterexample: the dummy storage manager's queue_upload
returns True even when the local file does not exist, while the claim
requires every implementation of the interface to return False exactly
then. -/
theorem c8_counterexample :
    (dummyQueueUpload [] false "missing.opus").1 ≠ false := by
  decide

/-- Claim C8 (amended): the real rsync manager's queue_upload returns
False exactly when the local file does not exist at enqueue time, and
when it returns True the task is registered for background processing
under its tracking id (it is appended to the active set and the queued
counter grows); the dummy manager's queue_upload instead always returns
True — recording an immediate success for the tracking id — regardless of
whether the file exists. -/
theorem c8_enqueue_contract (s : MgrState) (fe : Bool) (id : String) :
    ((queueUploadRun s fe id).1 = false ↔ fe = false) ∧
    (fe = true →
      (queueUploadRun s fe id).2.active = s.active ++ [id] ∧
      (queueUploadRun s fe id).2.queued = s.queued + 1) ∧
    (∀ (rs : List (String × UploadResult)) (fe2 : Bool) (id2 : String),
      (dummyQueueUpload rs fe2 id2).1 = true ∧
      lookupResult (dummyQueueUpload rs fe2 id2).2 id2 = some (true, none)) := by
  refine ⟨?_, fun hfe => ?_, fun rs fe2 id2 => ?_⟩
  · cases fe <;> simp [queueUploadRun]
  · subst hfe; simp [queueUploadRun]
  · simp [dummyQueueUpload, lookupResult]

/-- Witness for C8: enqueueing an existing file registers it. -/
theorem c8_enqueue_contract_witness :
    (queueUploadRun initMgr true "x").2.active = initMgr.active ++ ["x"] ∧
    (queueUploadRun initMgr true "x").2.queued = initMgr.queued + 1 :=
  (c8_enqueue_contract initMgr true "x").2.1 rfl

/-- Claim C10 counterexample: one upload queued and never finished, then
wait_for_completion times out: the cancellation path clears the active
set without incrementing the failed counter, so queued = 1 while
completed + failed + pending = 0. -/
theorem c10_counterexample :
    ¬ statsInvariant (runEvents initMgr
        [Event.queueUpload "a" true, Event.cancelTimeout]) := by
  decide

theorem stepEvent_preserves_invariant (s : MgrState) (e : Event)
    (hs : statsInvariant s) (he : okEvent s e = true) :
    statsInvariant (stepEvent s e) := by
  cases e with
  | queueUpload id fe =>
      cases fe
      · simpa [stepEvent, queueUploadRun] using hs
      · simp only [stepEvent, queueUploadRun, Bool.not_true, Bool.false_or,
          statsInvariant] at hs ⊢
        simp [List.length_append]
        omega
  | workerSuccess id =>
      have hmem : id ∈ s.active := of_decide_eq_true (by simpa [okEvent] using he)
      have hlen := List.length_erase_of_mem hmem
      have hpos := List.length_pos_of_mem hmem
      simp only [statsInvariant, stepEvent] at hs ⊢
      rw [hlen]
      omega
  | workerFail id err =>
      have hmem : id ∈ s.active := of_decide_eq_true (by simpa [okEvent] using he)
      have hlen := List.length_erase_of_mem hmem
      have hpos := List.length_pos_of_mem hmem
      simp only [statsInvariant, stepEvent] at hs ⊢
      rw [hlen]
      omega
  | retryTick => simpa [stepEvent, statsInvariant] using hs
  | cancelTimeout => simp [okEvent] at he

/-- Claim C10 (amended): the stats-consistency invariant
queued = completed + failed + pending holds in every state reachable from
the initial manager by enqueues of fresh tracking ids, worker
completions (success or exhausted-retries failure) of registered tasks,
and retry ticks; the timeout-cancellation path of wait_for_completion is
the exception the counterexample forces — it removes tasks from the
active set without counting them as failed, breaking the equation. -/
theorem c10_stats_consistency (s : MgrState) (evs : List Event)
    (hs : statsInvariant s) (hok : okTrace s evs = true) :
    statsInvariant (runEvents s evs) := by
  induction evs generalizing s with
  | nil => simpa [runEvents] using hs
  | cons e es ih =>
      have hok' : okEvent s e = true ∧ okTrace (stepEvent s e) es = true := by
        simpa [okTrace] using hok
      have := ih (stepEvent s e)
        (stepEvent_preserves_invariant s e hs hok'.1) hok'.2
      simpa [runEvents] using this

/-- Witness for C10: a concrete valid trace with two enqueues, one
success, one failure and a retry tick keeps the counters consistent. -/
theorem c10_stats_consistency_witness :
    statsInvariant (runEvents initMgr
      [Event.queueUpload "a" true, Event.retryTick, Event.workerSuccess "a",
       Event.queueUpload "b" true, Event.workerFail "b" "err"]) :=
  c10_stats_consistency initMgr
    [Event.queueUpload "a" true, Event.retryTick, Event.workerSuccess "a",
     Event.queueUpload "b" true, Event.workerFail "b" "err"]
    (by decide) (by decide)

end AudioPipeline
